import Mathlib

/-!
Verification of the AfroChat backend against its specification.

Part 1 embeds the Go code that exists under `src/` (configuration loading,
database connection, health endpoint, database initialization).

Part 2 models the Real-Time Messaging & Signaling Hub of the specification
(Membership Index, Broadcast Engine, Call Signaling Relay, Presence Tracker,
Connection Registry close cascade, Hub Coordinator serialization).  The Hub is
designed in the specification but has no implementation in the repository, so
those definitions are modelled from the spec and marked as such.
-/

namespace AfroChat

/-! ## Part 1: the Go code under src/ -/

/-- Shallow embedding of `GetEnv` (src/src/lib/utils/environment.go, lines 8-14).
The process environment is a total function from keys to strings; Go's
`os.Getenv` returns the empty string for an unset variable, so "unset or empty"
is exactly `env key = ""`.  A Go `panic` is modelled as `Option.none`. -/
def GetEnv (env : String → String) (key : String) : Option String :=
  if env key ≠ "" then some (env key) else none

/-- Embedding of `ApplicationConfig` (src/src/lib/utils/environment.go, second
compilation unit, package config). -/
structure ApplicationConfig where
  Port : String
  DBHost : String
  DBPort : String
  DBUser : String
  DBPass : String
  DBName : String
  DBSSL : String
  Env : String
deriving DecidableEq

/-- The eight environment variable keys read by `LoadApplicationConfig`, in
source order. -/
def configKeys : List String :=
  ["PORT", "DB_HOST", "DB_PORT", "DB_USER", "DB_PASSWORD", "DB_NAME",
   "DB_SSLMODE", "ENVIRONMENT"]

/-- Embedding of `LoadApplicationConfig` (src/src/lib/utils/environment.go,
lines 36-48 of the config unit).  Go evaluates the struct literal fields in
order, and a `panic` from any `GetEnv` aborts the whole call, which the
`Option` bind chain models: the result is `some` exactly when every `GetEnv`
succeeds. -/
def LoadApplicationConfig (env : String → String) : Option ApplicationConfig :=
  (GetEnv env "PORT").bind fun port =>
  (GetEnv env "DB_HOST").bind fun dbHost =>
  (GetEnv env "DB_PORT").bind fun dbPort =>
  (GetEnv env "DB_USER").bind fun dbUser =>
  (GetEnv env "DB_PASSWORD").bind fun dbPass =>
  (GetEnv env "DB_NAME").bind fun dbName =>
  (GetEnv env "DB_SSLMODE").bind fun dbSSL =>
  (GetEnv env "ENVIRONMENT").bind fun envName =>
  some ⟨port, dbHost, dbPort, dbUser, dbPass, dbName, dbSSL, envName⟩

/-- Embedding of `DatabaseConfig` (src/src/pkg/database/connection.go). -/
structure DatabaseConfig where
  Host : String
  Port : String
  User : String
  Password : String
  DBName : String
  SSLMode : String
deriving DecidableEq

/-- The `*sql.DB` handle behind a connection.  The only observation the code
under verification makes of it is `Ping`, whose outcome is modelled as
`pingError : Option String` (`none` means the ping succeeds, `some e` means it
returns error message `e`). -/
structure SqlDB where
  pingError : Option String
deriving DecidableEq

/-- Embedding of `DatabaseConnection` (src/src/pkg/database/connection.go):
a database handle plus its configuration. -/
structure DatabaseConnection where
  db : SqlDB
  Config : DatabaseConfig
deriving DecidableEq

/-- Embedding of `(c *DatabaseConnection) Health()` (connection.go lines
71-74): it just forwards `c.DB.Ping()`. -/
def Health (c : DatabaseConnection) : Option String :=
  c.db.pingError

/-- An HTTP response as produced through gin: a status code and a flat list of
rendered key/value pairs. -/
structure HttpResponse where
  status : Nat
  body : List (String × String)
deriving DecidableEq

/-- Embedding of `DatabaseHealthCheck` (src/src/services/health.go lines
18-35).  The gin context's only uses are `c.JSON(status, body)`, modelled as
the returned `HttpResponse`.  The nested `database` object of the 200 body is
flattened to its three key/value pairs (host, port, name).  The second
component of the result is the connection as left behind by the handler. -/
def DatabaseHealthCheck (conn : DatabaseConnection) :
    HttpResponse × DatabaseConnection :=
  match Health conn with
  | some err => (⟨503, [("status", "error"), ("error", err)]⟩, conn)
  | none =>
      (⟨200, [("status", "ok"), ("host", conn.Config.Host),
              ("port", conn.Config.Port), ("name", conn.Config.DBName)]⟩, conn)

/-- Outcome of running a Go function that may return normally, return an
error, or panic. -/
inductive GoOutcome (α : Type) where
  | ok : α → GoOutcome α
  | err : String → GoOutcome α
  | panicked : String → GoOutcome α
deriving DecidableEq

/-- Embedding of `InitDatabase` (src/src/services/database.go lines 10-27).
The outcome of `database.NewDatabaseConnection` (which performs network I/O)
is passed in as `connectResult`.  The `dbConnection` pointer argument is
modelled as `Option DatabaseConnection`: `none` is a nil pointer, `some old`
a pointer to pointee `old`.  On success the function executes
`*dbConnection = *conn`; through a nil pointer that dereference panics, and
through a valid pointer the new pointee is `conn`. -/
def InitDatabase (connectResult : Except String DatabaseConnection)
    (dbConnection : Option DatabaseConnection) :
    GoOutcome (Option DatabaseConnection) :=
  match connectResult with
  | .error e => .err e
  | .ok conn =>
      match dbConnection with
      | none => .panicked "invalid memory address or nil pointer dereference"
      | some _ => .ok (some conn)

/-- The `main` in the same file (src/src/services/database.go lines 39-52 of
the concatenated unit) declares the package-level variable
`dbConnection *database.DatabaseConnection` and never assigns it before
passing it to `InitDatabase`, so the pointer it passes is nil. -/
def mainDbConnection : Option DatabaseConnection := none

/-- What `main` in src/src/services/database.go does with the database pointer:
it calls `InitDatabase(appConfig, dbConnection)` with the nil package-level
pointer. -/
def mainInitDatabase (connectResult : Except String DatabaseConnection) :
    GoOutcome (Option DatabaseConnection) :=
  InitDatabase connectResult mainDbConnection

/-! ### Theorems for the Go code -/

/-- C8: `GetEnv` returns the value exactly when the variable is set non-empty
and panics (modelled `none`) when it is unset or empty; consequently
`LoadApplicationConfig` returns a config exactly when all eight variables
(PORT, DB_HOST, DB_PORT, DB_USER, DB_PASSWORD, DB_NAME, DB_SSLMODE,
ENVIRONMENT) are set non-empty, and panics otherwise. -/
theorem getEnv_load_config_characterization (env : String → String) :
    (∀ key, env key ≠ "" → GetEnv env key = some (env key)) ∧
    (∀ key, env key = "" → GetEnv env key = none) ∧
    ((LoadApplicationConfig env).isSome ↔ ∀ key ∈ configKeys, env key ≠ "") := by
  refine ⟨fun key h => by simp [GetEnv, h], fun key h => by simp [GetEnv, h], ?_⟩
  by_cases h1 : env "PORT" = ""
  · simp [LoadApplicationConfig, GetEnv, configKeys, h1]
  by_cases h2 : env "DB_HOST" = ""
  · simp [LoadApplicationConfig, GetEnv, configKeys, h1, h2]
  by_cases h3 : env "DB_PORT" = ""
  · simp [LoadApplicationConfig, GetEnv, configKeys, h1, h2, h3]
  by_cases h4 : env "DB_USER" = ""
  · simp [LoadApplicationConfig, GetEnv, configKeys, h1, h2, h3, h4]
  by_cases h5 : env "DB_PASSWORD" = ""
  · simp [LoadApplicationConfig, GetEnv, configKeys, h1, h2, h3, h4, h5]
  by_cases h6 : env "DB_NAME" = ""
  · simp [LoadApplicationConfig, GetEnv, configKeys, h1, h2, h3, h4, h5, h6]
  by_cases h7 : env "DB_SSLMODE" = ""
  · simp [LoadApplicationConfig, GetEnv, configKeys, h1, h2, h3, h4, h5, h6, h7]
  by_cases h8 : env "ENVIRONMENT" = ""
  · simp [LoadApplicationConfig, GetEnv, configKeys, h1, h2, h3, h4, h5, h6, h7,
      h8]
  · simp [LoadApplicationConfig, GetEnv, configKeys, h1, h2, h3, h4, h5, h6, h7,
      h8]

/-- Witness for C8: with every variable set non-empty the config loads, by the
theorem's third conjunct. -/
theorem getEnv_load_config_characterization_witness :
    (LoadApplicationConfig (fun _ => "x")).isSome :=
  (getEnv_load_config_characterization (fun _ => "x")).2.2.mpr
    (by intro key _; simp)

/-- C9: `DatabaseHealthCheck` responds 503 with the error message exactly when
`Health` (the database ping) fails, otherwise 200 carrying the configured
host, port and database name; in both cases the connection (and hence its
configuration) is returned unchanged. -/
theorem databaseHealthCheck_characterization (conn : DatabaseConnection) :
    (∀ e, Health conn = some e →
      DatabaseHealthCheck conn =
        (⟨503, [("status", "error"), ("error", e)]⟩, conn)) ∧
    (Health conn = none →
      DatabaseHealthCheck conn =
        (⟨200, [("status", "ok"), ("host", conn.Config.Host),
                ("port", conn.Config.Port), ("name", conn.Config.DBName)]⟩,
         conn)) ∧
    (DatabaseHealthCheck conn).2 = conn := by
  refine ⟨fun e he => ?_, fun h => ?_, ?_⟩
  · simp [DatabaseHealthCheck, he]
  · simp [DatabaseHealthCheck, h]
  · cases h : Health conn <;> simp [DatabaseHealthCheck, h]

/-- Witness for C9 at a concrete healthy connection: the handler returns 200
with the configured host, port and name. -/
theorem databaseHealthCheck_characterization_witness :
    DatabaseHealthCheck ⟨⟨none⟩, ⟨"h", "5432", "u", "p", "d", "disable"⟩⟩ =
      (⟨200, [("status", "ok"), ("host", "h"), ("port", "5432"),
              ("name", "d")]⟩,
       ⟨⟨none⟩, ⟨"h", "5432", "u", "p", "d", "disable"⟩⟩) :=
  (databaseHealthCheck_characterization
    ⟨⟨none⟩, ⟨"h", "5432", "u", "p", "d", "disable"⟩⟩).2.1 rfl

/-- C10: after a successful connection `InitDatabase` writes the new
connection through its pointer argument, and `main` in the same file passes
the never-initialized (nil) package-level pointer, so there the write
dereferences nil and panics even though the connection itself succeeded;
a failed connection is returned as an error before any write. -/
theorem initDatabase_nil_pointer_panic (conn : DatabaseConnection) :
    (∀ old, InitDatabase (Except.ok conn) (some old) = .ok (some conn)) ∧
    mainInitDatabase (Except.ok conn) =
      .panicked "invalid memory address or nil pointer dereference" ∧
    (∀ e old, InitDatabase (Except.error e) old = .err e) := by
  exact ⟨fun old => rfl, rfl, fun e old => rfl⟩

/-! ## Part 2: the Real-Time Messaging & Signaling Hub

The Hub subsystem (spec sections 2-5) has no implementation under `src/`:
the repository's reachable backend code is the health/config/database code of
Part 1, and the Hub exists only as the specification's design.  The
definitions below are therefore modelled from the spec, as their doc comments
record.  The Hub Coordinator's single serialization point (spec section 4.6 and
section 5) is modelled by applying intents one at a time with a fold: the
sequential fold IS the Coordinator's ordered intake. -/

/-- Session identifiers (spec section 3, Session). -/
abbrev SessionId := Nat

/-- Channel identifiers (spec section 3, Channel Membership). -/
abbrev ChannelId := Nat

/-- User identifiers (spec section 3, Presence Record / Call). -/
abbrev UserId := Nat

/-- Modelled from the spec: the Membership Index (spec sections 3 and 4.2),
missing from `src/`.  Two maps: channel id to the set of member session ids,
and the inverse, session id to the set of joined channel ids. -/
structure MembershipIndex where
  channelMembers : ChannelId → Finset SessionId
  sessionChannels : SessionId → Finset ChannelId

/-- The empty Membership Index: no session has joined any channel. -/
def MembershipIndex.empty : MembershipIndex :=
  ⟨fun _ => ∅, fun _ => ∅⟩

/-- Modelled from the spec: `join(sessionId, channelId)` of the Membership
Index (spec section 4.2), missing from `src/`: idempotent, adds the
bidirectional mapping.  (The external `NotAMember` authorization check happens
before the mapping is added and does not affect the Index's state.) -/
def MembershipIndex.join (s : SessionId) (c : ChannelId) (m : MembershipIndex) :
    MembershipIndex where
  channelMembers := fun c' =>
    if c' = c then insert s (m.channelMembers c') else m.channelMembers c'
  sessionChannels := fun s' =>
    if s' = s then insert c (m.sessionChannels s') else m.sessionChannels s'

/-- Modelled from the spec: `leave(sessionId, channelId)` of the Membership
Index (spec section 4.2), missing from `src/`: removes the mapping, no-op if
absent. -/
def MembershipIndex.leave (s : SessionId) (c : ChannelId) (m : MembershipIndex) :
    MembershipIndex where
  channelMembers := fun c' =>
    if c' = c then (m.channelMembers c').erase s else m.channelMembers c'
  sessionChannels := fun s' =>
    if s' = s then (m.sessionChannels s').erase c else m.sessionChannels s'

/-- Modelled from the spec: the Membership Index part of session destruction
(spec section 3, lifecycle invariant), missing from `src/`: destruction
releases the session from every channel it had joined. -/
def MembershipIndex.destroySession (s : SessionId) (m : MembershipIndex) :
    MembershipIndex where
  channelMembers := fun c' => (m.channelMembers c').erase s
  sessionChannels := fun s' => if s' = s then ∅ else m.sessionChannels s'

/-- The intents that mutate the Membership Index, all routed through the Hub
Coordinator (spec section 3: mutated only by the Hub Coordinator in response to
join/leave intents or session destruction). -/
inductive MemOp where
  | join (s : SessionId) (c : ChannelId)
  | leave (s : SessionId) (c : ChannelId)
  | destroy (s : SessionId)

/-- One Coordinator step on the Membership Index. -/
def MemOp.apply (op : MemOp) (m : MembershipIndex) : MembershipIndex :=
  match op with
  | .join s c => m.join s c
  | .leave s c => m.leave s c
  | .destroy s => m.destroySession s

/-- The state reached by serializing a list of membership intents through the
Hub Coordinator, starting from the empty Index. -/
def MembershipIndex.run (ops : List MemOp) : MembershipIndex :=
  ops.foldl (fun m op => op.apply m) .empty

/-- The consistency invariant of spec section 3: a session id appears in a
channel's set if and only if that channel id appears in the session's set. -/
def MembershipIndex.Consistent (m : MembershipIndex) : Prop :=
  ∀ s c, s ∈ m.channelMembers c ↔ c ∈ m.sessionChannels s

theorem MembershipIndex.consistent_empty : MembershipIndex.empty.Consistent := by
  intro s c
  simp [MembershipIndex.empty]

theorem MembershipIndex.consistent_join (s : SessionId) (c : ChannelId)
    (m : MembershipIndex) (h : m.Consistent) : (m.join s c).Consistent := by
  intro s' c'
  simp only [MembershipIndex.join]
  by_cases hc : c' = c <;> by_cases hs : s' = s <;>
    simp [hc, hs, h s' c', h s' c, h s c', h s c, Finset.mem_insert]

theorem MembershipIndex.consistent_leave (s : SessionId) (c : ChannelId)
    (m : MembershipIndex) (h : m.Consistent) : (m.leave s c).Consistent := by
  intro s' c'
  simp only [MembershipIndex.leave]
  by_cases hc : c' = c <;> by_cases hs : s' = s <;>
    simp [hc, hs, h s' c', h s' c, h s c', h s c, Finset.mem_erase]

theorem MembershipIndex.consistent_destroy (s : SessionId)
    (m : MembershipIndex) (h : m.Consistent) : (m.destroySession s).Consistent := by
  intro s' c'
  simp only [MembershipIndex.destroySession]
  by_cases hs : s' = s <;> simp [hs, h s' c', h s c', Finset.mem_erase]

theorem MemOp.consistent_apply (op : MemOp) (m : MembershipIndex)
    (h : m.Consistent) : (op.apply m).Consistent := by
  cases op with
  | join s c => exact m.consistent_join s c h
  | leave s c => exact m.consistent_leave s c h
  | destroy s => exact m.consistent_destroy s h

theorem MembershipIndex.consistent_foldl (ops : List MemOp)
    (m : MembershipIndex) (h : m.Consistent) :
    (ops.foldl (fun m op => op.apply m) m).Consistent := by
  induction ops generalizing m with
  | nil => exact h
  | cons op ops ih => exact ih _ (op.consistent_apply m h)

/-! ### Theorems for the Membership Index claims -/

/-- C3: in every state reachable by any sequence of join/leave intents and
session destructions applied through the Hub Coordinator (serialized as a
fold), the two maps of the Membership Index are mutually consistent: a session
id appears in a channel's member set iff that channel id appears in that
session's joined-channel set. -/
theorem membership_reachable_consistent (ops : List MemOp) :
    (MembershipIndex.run ops).Consistent :=
  MembershipIndex.consistent_foldl ops .empty MembershipIndex.consistent_empty

/-- C4 counterexample: the round-trip law fails as universally stated.  In the
state where session 0 has already joined channel 0, joining again (idempotent,
no change) and then leaving removes the pre-existing mapping, so the result
differs from the starting state. -/
theorem membership_join_leave_not_roundtrip :
    ((MembershipIndex.empty.join 0 0).join 0 0).leave 0 0 ≠
      MembershipIndex.empty.join 0 0 := by
  intro h
  have h0 := congrArg (fun m => (0 : ChannelId) ∈ m.sessionChannels 0) h
  simp [MembershipIndex.join, MembershipIndex.leave, MembershipIndex.empty]
    at h0

/-- C4 amended: for every session id s, channel id c and Membership Index
state m in which s has not joined c (s is not in c's member set and c is not
in s's joined-channel set), join(s, c) immediately followed by leave(s, c)
yields a state equal to m. -/
theorem membership_join_leave_roundtrip (s : SessionId) (c : ChannelId)
    (m : MembershipIndex) (h1 : s ∉ m.channelMembers c)
    (h2 : c ∉ m.sessionChannels s) :
    (m.join s c).leave s c = m := by
  obtain ⟨cm, sc⟩ := m
  simp only [MembershipIndex.join, MembershipIndex.leave] at *
  congr 1
  · funext c'
    by_cases hc : c' = c
    · subst hc
      simp [Finset.erase_insert h1]
    · simp [hc]
  · funext s'
    by_cases hs : s' = s
    · subst hs
      simp [Finset.erase_insert h2]
    · simp [hs]

/-- Witness for the amended C4: joining then leaving a fresh channel from the
empty Index returns the empty Index. -/
theorem membership_join_leave_roundtrip_witness :
    (MembershipIndex.empty.join 0 1).leave 0 1 = MembershipIndex.empty :=
  membership_join_leave_roundtrip 0 1 MembershipIndex.empty
    (by simp [MembershipIndex.empty]) (by simp [MembershipIndex.empty])

/-! ### Broadcast Engine (spec section 4.4) -/

/-- A chat event as fanned out by the Broadcast Engine: the channel it was
published to and an opaque payload. -/
structure BEvent where
  channel : ChannelId
  payload : Nat
deriving DecidableEq

/-- The per-session outbound event queues owned by the Connection Registry
(spec section 3, Session: bounded outbound event queue; the bound and its
drop policy are not relevant to the ordering claim). -/
abbrev Queues := SessionId → List BEvent

/-- Modelled from the spec: `publish(channelId, event)` of the Broadcast
Engine (spec section 4.4), missing from `src/`: resolves the channel's member
sessions and appends the event to each member's outbound queue.  `members` is
the membership read path (`membersOf`). -/
def publish (members : ChannelId → Finset SessionId) (q : Queues)
    (e : BEvent) : Queues :=
  fun s => if s ∈ members e.channel then q s ++ [e] else q s

/-- A sequence of publish calls accepted by the Hub Coordinator, executed one
at a time inside its single serialization point (spec sections 4.4, 4.6): the
sequential fold is the serialization. -/
def publishAll (members : ChannelId → Finset SessionId) (es : List BEvent)
    (q : Queues) : Queues :=
  es.foldl (publish members) q

/-- C1: for every channel c and every serialized sequence of publish calls,
every member session of c receives the events published to c in its outbound
queue in exactly the published relative order: the subsequence of its queue
belonging to channel c equals what was already there followed by the published
events in order.  Events of other channels may interleave (cross-channel order
unconstrained). -/
theorem broadcast_channel_order (members : ChannelId → Finset SessionId)
    (c : ChannelId) (s : SessionId) (es : List BEvent) (q : Queues)
    (h : s ∈ members c) :
    (publishAll members es q s).filter (fun e => e.channel == c) =
      (q s).filter (fun e => e.channel == c) ++
        es.filter (fun e => e.channel == c) := by
  induction es generalizing q with
  | nil => simp [publishAll]
  | cons e es ih =>
    have step : publishAll members (e :: es) q =
        publishAll members es (publish members q e) := rfl
    rw [step, ih]
    by_cases hc : e.channel = c
    · have hm : s ∈ members e.channel := hc ▸ h
      simp [publish, hm, hc, h, List.filter_append]
    · by_cases hm : s ∈ members e.channel <;>
        simp [publish, hm, hc, List.filter_append]

/-- Witness for C1: session 0, a member of channel 0, receives the two events
published to channel 0 in order, with the channel-1 event interleaved but not
part of channel 0's subsequence. -/
theorem broadcast_channel_order_witness :
    (publishAll (fun _ => ({0} : Finset SessionId))
        [⟨0, 5⟩, ⟨1, 6⟩, ⟨0, 7⟩] (fun _ => []) 0).filter
        (fun e => e.channel == 0) =
      ((fun _ => ([] : List BEvent)) 0).filter (fun e => e.channel == 0) ++
        ([⟨0, 5⟩, ⟨1, 6⟩, ⟨0, 7⟩] : List BEvent).filter
          (fun e => e.channel == 0) :=
  broadcast_channel_order (fun _ => {0}) 0 0 [⟨0, 5⟩, ⟨1, 6⟩, ⟨0, 7⟩]
    (fun _ => []) (by decide)

/-! ### Call Signaling Relay (spec sections 3 and 4.5) -/

/-- Call lifecycle states (spec section 3, Call). -/
inductive CallState where
  | pending
  | active
  | ended
deriving DecidableEq

/-- Call errors surfaced to the client (spec section 7). -/
inductive CallError where
  | CallNotFound
  | CallEnded
deriving DecidableEq

/-- Modelled from the spec: a Call (spec section 3), missing from `src/`:
bound to one channel, holding a state, the set of participant user ids, and
for each participant the set of session ids currently party to the call (a
user may have only one session active in a call at a time). -/
structure Call where
  channel : ChannelId
  state : CallState
  participants : Finset UserId
  sessions : UserId → Finset SessionId

/-- Modelled from the spec: `startCall(channelId, userId)` (spec section 4.5),
missing from `src/`: creates the call `pending`, awaiting the first answerer,
with the starting user (connected through session s) as sole participant. -/
def startCall (c : ChannelId) (u : UserId) (s : SessionId) : Call where
  channel := c
  state := .pending
  participants := {u}
  sessions := fun u' => if u' = u then {s} else ∅

/-- Modelled from the spec: `joinCall(callId, userId, sessionId)` (spec
section 4.5), missing from `src/`: fails with `CallEnded` on an ended call;
otherwise adds the participant, moves the state to `active` when the distinct
participants reach two, and makes s the user's one active session in the call
(joining from a new session evicts the former one). -/
def joinCall (u : UserId) (s : SessionId) (call : Call) :
    Except CallError Call :=
  if call.state = .ended then .error .CallEnded
  else .ok { call with
    participants := insert u call.participants
    state :=
      if 2 ≤ (insert u call.participants).card then .active else call.state
    sessions := fun u' => if u' = u then {s} else call.sessions u' }

/-- Modelled from the spec: `leaveCall(callId, sessionId)` (spec section 4.5),
missing from `src/`: removes the participant (identified by the owning user,
since a user has at most one session party to the call); if zero participants
remain the state becomes `ended`. -/
def leaveCall (u : UserId) (call : Call) : Call :=
  let ps := call.participants.erase u
  { call with
    participants := ps
    state := if ps = ∅ then .ended else call.state
    sessions := fun u' => if u' = u then ∅ else call.sessions u' }

/-- Modelled from the spec: an explicit end-call intent (spec section 3, Call:
destroyed when the last participant leaves or an explicit end-call intent
arrives). -/
def endCall (call : Call) : Call :=
  { call with state := .ended }

/-- The intents that mutate a call, serialized by the Hub Coordinator. -/
inductive CallOp where
  | join (u : UserId) (s : SessionId)
  | leave (u : UserId)
  | endIntent

/-- One Coordinator step on a call.  A failed `joinCall` (stale reference to an
ended call) is surfaced to the client and leaves the call unchanged. -/
def CallOp.apply (op : CallOp) (call : Call) : Call :=
  match op with
  | .join u s =>
      match joinCall u s call with
      | .ok call' => call'
      | .error _ => call
  | .leave u => leaveCall u call
  | .endIntent => endCall call

/-- The call reached by serializing a list of call intents. -/
def runCall (ops : List CallOp) (call : Call) : Call :=
  ops.foldl (fun c op => op.apply c) call

/-- A call is reachable when it arises from some `startCall` by some serialized
sequence of join/leave/end intents. -/
def Call.Reachable (call : Call) : Prop :=
  ∃ ch u₀ s₀ ops, call = runCall ops (startCall ch u₀ s₀)

theorem CallOp.apply_pending_card (op : CallOp) (call : Call)
    (h : call.state = .pending → call.participants.card = 1) :
    (op.apply call).state = .pending → (op.apply call).participants.card = 1 := by
  cases op with
  | join u s =>
    by_cases he : call.state = .ended
    · simp [CallOp.apply, joinCall, he]
    · simp only [CallOp.apply, joinCall, he, if_false]
      intro hp
      by_cases h2 : 2 ≤ (insert u call.participants).card
      · simp [h2] at hp
      · simp [h2] at hp ⊢
        have hpos : 0 < (insert u call.participants).card :=
          Finset.card_pos.mpr ⟨u, Finset.mem_insert_self u _⟩
        omega
  | leave u =>
    simp only [CallOp.apply, leaveCall]
    intro hp
    by_cases hps : call.participants.erase u = ∅
    · simp [hps] at hp
    · simp [hps] at hp ⊢
      have hc := h hp
      by_cases hu : u ∈ call.participants
      · have h0 : (call.participants.erase u).card = 0 := by
          rw [Finset.card_erase_of_mem hu, hc]
        exact absurd (Finset.card_eq_zero.mp h0) hps
      · rw [Finset.erase_eq_of_not_mem hu]
        exact hc
  | endIntent =>
    simp [CallOp.apply, endCall]

theorem runCall_pending_card (ops : List CallOp) (call : Call)
    (h : call.state = .pending → call.participants.card = 1) :
    (runCall ops call).state = .pending →
      (runCall ops call).participants.card = 1 := by
  induction ops generalizing call with
  | nil => exact h
  | cons op ops ih => exact ih (op.apply call) (op.apply_pending_card call h)

/-- A reachable pending call has exactly one participant (it is awaiting the
first answerer). -/
theorem Call.reachable_pending_card (call : Call) (hr : call.Reachable) :
    call.state = .pending → call.participants.card = 1 := by
  obtain ⟨ch, u₀, s₀, ops, rfl⟩ := hr
  exact runCall_pending_card ops _ (by simp [startCall])

/-- C2 counterexample: a freshly started call is `pending` with one
participant; that participant leaving moves the state directly from `pending`
to `ended` — a transition other than the two the claim allows (`pending →
active` on the second participant and `active → ended` on the last leave or
end intent), refuting "no other transitions between these states occur". -/
theorem call_pending_to_ended_counterexample :
    (startCall 0 0 0).state = .pending ∧
      (CallOp.apply (.leave 0) (startCall 0 0 0)).state = .ended := by
  constructor
  · rfl
  · simp [CallOp.apply, leaveCall, startCall]

/-- C2 amended: for every reachable call, joinCall moves the state from
`pending` to `active` exactly when the second distinct participant joins
(a reachable pending call has exactly one participant), the state moves to
`ended` exactly when the last participant leaves or an explicit end-call
intent arrives — from `active`, but equally from `pending` —, and no other
transitions occur: an active call never returns to `pending` and an ended
call stays ended. -/
theorem call_state_transitions (call : Call) (hr : call.Reachable)
    (op : CallOp) :
    (call.state = .pending → call.participants.card = 1) ∧
    (call.state = .pending →
      ((op.apply call).state = .active ↔
        ∃ u s, op = .join u s ∧ u ∉ call.participants)) ∧
    (call.state = .active →
      ((op.apply call).state = .ended ↔
        op = .endIntent ∨
          ∃ u, op = .leave u ∧ call.participants.erase u = ∅)) ∧
    (call.state = .pending →
      ((op.apply call).state = .ended ↔
        op = .endIntent ∨
          ∃ u, op = .leave u ∧ call.participants.erase u = ∅)) ∧
    (call.state = .active → (op.apply call).state ≠ .pending) ∧
    (call.state = .ended → (op.apply call).state = .ended) := by
  have hwf := call.reachable_pending_card hr
  refine ⟨hwf, ?_, ?_, ?_, ?_, ?_⟩
  · intro hp
    cases op with
    | join u s =>
      have hcard := hwf hp
      constructor
      · intro ha
        refine ⟨u, s, rfl, fun hu => ?_⟩
        have h1 : (insert u call.participants).card = 1 := by
          rw [Finset.insert_eq_self.mpr hu, hcard]
        simp [CallOp.apply, joinCall, hp, h1] at ha
      · rintro ⟨u', s', hop, hu'⟩
        cases hop
        have h2 : (insert u call.participants).card = 2 := by
          rw [Finset.card_insert_of_not_mem hu', hcard]
        simp [CallOp.apply, joinCall, hp, h2]
    | leave u =>
      constructor
      · intro ha
        by_cases hps : call.participants.erase u = ∅ <;>
          simp [CallOp.apply, leaveCall, hps, hp] at ha
      · rintro ⟨u', s', hop, hu'⟩
        cases hop
    | endIntent =>
      constructor
      · intro ha
        simp [CallOp.apply, endCall] at ha
      · rintro ⟨u', s', hop, hu'⟩
        cases hop
  · intro ha
    cases op with
    | join u s =>
      have hne : call.state ≠ .ended := by rw [ha]; simp
      constructor
      · intro he
        by_cases h2 : 2 ≤ (insert u call.participants).card <;>
          simp [CallOp.apply, joinCall, hne, h2, ha] at he
      · rintro (hop | ⟨u', hop, hps⟩) <;> cases hop
    | leave u =>
      constructor
      · intro he
        by_cases hps : call.participants.erase u = ∅
        · exact Or.inr ⟨u, rfl, hps⟩
        · simp [CallOp.apply, leaveCall, hps, ha] at he
      · rintro (hop | ⟨u', hop, hps⟩)
        · cases hop
        · cases hop
          simp [CallOp.apply, leaveCall, hps]
    | endIntent =>
      exact ⟨fun _ => Or.inl rfl, fun _ => by simp [CallOp.apply, endCall]⟩
  · intro hp
    cases op with
    | join u s =>
      constructor
      · intro he
        by_cases h2 : 2 ≤ (insert u call.participants).card <;>
          simp [CallOp.apply, joinCall, hp, h2] at he
      · rintro (hop | ⟨u', hop, hps⟩) <;> cases hop
    | leave u =>
      constructor
      · intro he
        by_cases hps : call.participants.erase u = ∅
        · exact Or.inr ⟨u, rfl, hps⟩
        · simp [CallOp.apply, leaveCall, hps, hp] at he
      · rintro (hop | ⟨u', hop, hps⟩)
        · cases hop
        · cases hop
          simp [CallOp.apply, leaveCall, hps]
    | endIntent =>
      exact ⟨fun _ => Or.inl rfl, fun _ => by simp [CallOp.apply, endCall]⟩
  · intro ha
    cases op with
    | join u s =>
      have hne : call.state ≠ .ended := by rw [ha]; simp
      by_cases h2 : 2 ≤ (insert u call.participants).card <;>
        simp [CallOp.apply, joinCall, hne, h2, ha]
    | leave u =>
      by_cases hps : call.participants.erase u = ∅ <;>
        simp [CallOp.apply, leaveCall, hps, ha]
    | endIntent =>
      simp [CallOp.apply, endCall]
  · intro he
    cases op with
    | join u s =>
      simp [CallOp.apply, joinCall, he]
    | leave u =>
      by_cases hps : call.participants.erase u = ∅ <;>
        simp [CallOp.apply, leaveCall, hps, he]
    | endIntent =>
      simp [CallOp.apply, endCall]

/-- Witness for the amended C2: the freshly started call (reachable, pending,
sole participant user 0) becomes `active` exactly as user 1 — the second
distinct participant — joins. -/
theorem call_state_transitions_witness :
    (CallOp.apply (.join 1 1) (startCall 0 0 0)).state = .active :=
  ((call_state_transitions (startCall 0 0 0) ⟨0, 0, 0, [], rfl⟩
      (.join 1 1)).2.1 rfl).mpr ⟨1, 1, rfl, by decide⟩

/-! ### Presence Tracker (spec sections 3 and 4.3) -/

/-- Presence statuses (spec section 3, Presence Record).  No Hub operation of
the spec's contract ever assigns `away`, so it never arises in reachable
states. -/
inductive PresenceStatus where
  | online
  | away
  | offline
deriving DecidableEq

/-- Modelled from the spec: the Presence Tracker (spec sections 3 and 4.3),
missing from `src/`: per user, the set of live sessions and the derived
status.  (Last-activity timestamps and typing entries play no part in the
online/offline claims and are omitted.) -/
structure PresenceTracker where
  liveSessions : UserId → Finset SessionId
  status : UserId → PresenceStatus

/-- The initial Presence Tracker: nobody connected, everybody offline. -/
def PresenceTracker.initial : PresenceTracker :=
  ⟨fun _ => ∅, fun _ => .offline⟩

/-- Modelled from the spec: a session of user u opening (spec section 2
control flow with section 4.3 `touch`): the user gains a live session and is
online. -/
def sessionOpened (u : UserId) (s : SessionId) (p : PresenceTracker) :
    PresenceTracker where
  liveSessions := fun u' =>
    if u' = u then insert s (p.liveSessions u') else p.liveSessions u'
  status := fun u' => if u' = u then .online else p.status u'

/-- Modelled from the spec: `touch(userId)` (spec section 4.3), missing from
`src/`: updates last-activity and, if the status was `offline`, flips it to
`online`. -/
def touch (u : UserId) (p : PresenceTracker) : PresenceTracker where
  liveSessions := p.liveSessions
  status := fun u' =>
    if u' = u ∧ p.status u' = .offline then .online else p.status u'

/-- Modelled from the spec: `sessionClosed(userId)` for session s (spec
sections 4.1 and 4.3), missing from `src/`: the session is no longer live and
the status is recomputed to `offline` only if the user has zero remaining live
sessions. -/
def sessionClosed (u : UserId) (s : SessionId) (p : PresenceTracker) :
    PresenceTracker :=
  let remaining := (p.liveSessions u).erase s
  { liveSessions := fun u' => if u' = u then remaining else p.liveSessions u'
    status := fun u' =>
      if u' = u ∧ remaining = ∅ then .offline else p.status u' }

/-- The intents that mutate presence, serialized by the Hub Coordinator.  A
`touch` intent originates from an inbound frame of one of the user's live
connections (spec section 2 control flow), so the Coordinator only ever
applies it for a user with a live session. -/
inductive PresOp where
  | opened (u : UserId) (s : SessionId)
  | closed (u : UserId) (s : SessionId)
  | touch (u : UserId)

/-- One Coordinator step on the Presence Tracker. -/
def PresOp.apply (op : PresOp) (p : PresenceTracker) : PresenceTracker :=
  match op with
  | .opened u s => sessionOpened u s p
  | .closed u s => sessionClosed u s p
  | .touch u => if p.liveSessions u ≠ ∅ then AfroChat.touch u p else p

/-- The presence state reached by serializing a list of presence intents. -/
def PresenceTracker.run (ops : List PresOp) : PresenceTracker :=
  ops.foldl (fun p op => op.apply p) .initial

/-- The presence invariant of spec sections 3 and 4.3: a user is online iff
they have at least one live session. -/
def PresenceTracker.Consistent (p : PresenceTracker) : Prop :=
  ∀ u, p.status u = .online ↔ p.liveSessions u ≠ ∅

theorem PresenceTracker.consistent_initial :
    PresenceTracker.initial.Consistent := by
  intro u
  simp [PresenceTracker.initial]

theorem PresOp.apply_consistent (op : PresOp) (p : PresenceTracker)
    (h : p.Consistent) : (op.apply p).Consistent := by
  cases op with
  | opened u s =>
    intro u'
    by_cases hu : u' = u <;>
      simp [PresOp.apply, sessionOpened, hu, h u']
  | closed u s =>
    intro u'
    by_cases hu : u' = u
    · subst hu
      by_cases hr : (p.liveSessions u').erase s = ∅
      · simp [PresOp.apply, sessionClosed, hr]
      · have hne : p.liveSessions u' ≠ ∅ := by
          intro h0
          exact hr (by simp [h0])
        simp [PresOp.apply, sessionClosed, hr, (h u').mpr hne]
    · simp [PresOp.apply, sessionClosed, hu, h u']
  | touch u =>
    by_cases hg : p.liveSessions u ≠ ∅
    · intro u'
      by_cases hu : u' = u
      · subst hu
        simp [PresOp.apply, AfroChat.touch, hg, (h u').mpr hg]
      · simp [PresOp.apply, AfroChat.touch, hg, hu, h u']
    · simp only [PresOp.apply, hg, if_false]
      exact h

theorem PresenceTracker.consistent_fold (ops : List PresOp)
    (p : PresenceTracker) (h : p.Consistent) :
    (ops.foldl (fun p op => op.apply p) p).Consistent := by
  induction ops generalizing p with
  | nil => exact h
  | cons op ops ih => exact ih (op.apply p) (op.apply_consistent p h)

theorem PresenceTracker.run_consistent (ops : List PresOp) :
    (PresenceTracker.run ops).Consistent :=
  PresenceTracker.consistent_fold ops .initial
    PresenceTracker.consistent_initial

/-- sessionClosed is idempotent: re-closing the same session of the same user
changes nothing. -/
theorem sessionClosed_idem (u : UserId) (s : SessionId) (p : PresenceTracker) :
    sessionClosed u s (sessionClosed u s p) = sessionClosed u s p := by
  obtain ⟨ls, st⟩ := p
  simp only [sessionClosed]
  congr 1
  · funext u'
    by_cases hu : u' = u <;> simp [hu, Finset.erase_idem]
  · funext u'
    by_cases hu : u' = u
    · by_cases hr : (ls u).erase s = ∅ <;> simp [hu, hr, Finset.erase_idem]
    · simp [hu]

/-- C5: in every reachable presence state a user's status is `online` iff
their live-session count is greater than zero; and closing the user's last
live session produces exactly one transition to `offline`: that close flips
the status from `online` to `offline`, and repeating the close changes
nothing (so no second transition occurs). -/
theorem presence_online_iff_live (ops : List PresOp) (u : UserId)
    (s : SessionId) :
    ((PresenceTracker.run ops).status u = .online ↔
      0 < ((PresenceTracker.run ops).liveSessions u).card) ∧
    ((PresenceTracker.run ops).liveSessions u = {s} →
      (PresenceTracker.run ops).status u = .online ∧
      (sessionClosed u s (PresenceTracker.run ops)).status u = .offline ∧
      sessionClosed u s (sessionClosed u s (PresenceTracker.run ops)) =
        sessionClosed u s (PresenceTracker.run ops)) := by
  have hc := PresenceTracker.run_consistent ops u
  constructor
  · rw [hc, Finset.card_pos, Finset.nonempty_iff_ne_empty]
  · intro hs
    refine ⟨hc.mpr (by simp [hs]), ?_, sessionClosed_idem u s _⟩
    simp [sessionClosed, hs]

/-- Witness for C5: user 0 opens session 5 and then closes it; the close of
this last live session flips the status to offline. -/
theorem presence_online_iff_live_witness :
    (sessionClosed 0 5 (PresenceTracker.run [PresOp.opened 0 5])).status 0 =
      .offline :=
  ((presence_online_iff_live [PresOp.opened 0 5] 0 5).2 (by decide)).2.1

/-! ### Connection Registry close cascade (spec sections 3 and 4.1) -/

/-- Call identifiers (spec section 3, Call). -/
abbrev CallId := Nat

/-- Modelled from the spec: the release of a destroyed session from a call it
was party to (spec section 3, lifecycle invariant: destruction cascades
through "any Call the session was party to").  A user has at most one session
active in a call, so if s is the session through which its owner is party to
the call, the owner leaves the call (`leaveCall`, spec section 4.5, including
ending the call when no participant remains); a call the session is not party
to is untouched. -/
def evictSession (owner : SessionId → UserId) (s : SessionId) (call : Call) :
    Call :=
  if s ∈ call.sessions (owner s) then leaveCall (owner s) call else call

/-- Modelled from the spec: the Hub state that `close(sessionId)` cascades
through (spec section 3, lifecycle invariant): the set of live sessions owned
by the Connection Registry, the Membership Index, the Presence Tracker, and
every Call, indexed by call id. -/
structure HubState where
  live : Finset SessionId
  membership : MembershipIndex
  presence : PresenceTracker
  calls : CallId → Call

/-- destroySession is idempotent on the Membership Index. -/
theorem MembershipIndex.destroySession_idem (s : SessionId)
    (m : MembershipIndex) :
    (m.destroySession s).destroySession s = m.destroySession s := by
  obtain ⟨cm, sc⟩ := m
  simp only [MembershipIndex.destroySession]
  congr 1
  · funext c'
    simp [Finset.erase_idem]
  · funext s'
    by_cases hs : s' = s <;> simp [hs]

/-- evictSession is idempotent on a call: after the first eviction the session
is no longer party to the call, so the second eviction changes nothing. -/
theorem evictSession_idem (owner : SessionId → UserId) (s : SessionId)
    (call : Call) :
    evictSession owner s (evictSession owner s call) =
      evictSession owner s call := by
  by_cases h : s ∈ call.sessions (owner s)
  · have h2 : s ∉ (leaveCall (owner s) call).sessions (owner s) := by
      simp [leaveCall]
    simp [evictSession, h, h2]
  · simp [evictSession, h]

/-- Modelled from the spec: `close(sessionId)` of the Connection Registry
(spec section 4.1), missing from `src/`.  It is a total function — it has no
error outcome, matching "always succeeds", also for an already-closed or
never-opened session id — and it is the single trigger for cascade cleanup
(spec section 3): the session leaves the registry, is released from every
joined channel, its owner's presence is recomputed, and it is evicted from
any Call it was party to.  `owner` maps each session id to its owning user,
fixed at session creation. -/
def close (owner : SessionId → UserId) (s : SessionId) (st : HubState) :
    HubState where
  live := st.live.erase s
  membership := st.membership.destroySession s
  presence := sessionClosed (owner s) s st.presence
  calls := fun id => evictSession owner s (st.calls id)

/-- C6: `close(sessionId)` is idempotent and never fails: it is total (no
error outcome, even for an already-closed or unknown session id), and closing
the same session twice leaves the whole Hub state — registry, Membership
Index, Presence Tracker and every Call — exactly as closing it once. -/
theorem close_idempotent (owner : SessionId → UserId) (s : SessionId)
    (st : HubState) :
    close owner s (close owner s st) = close owner s st := by
  simp only [close]
  congr 1
  · exact Finset.erase_idem
  · exact st.membership.destroySession_idem s
  · exact sessionClosed_idem (owner s) s st.presence
  · funext id
    exact evictSession_idem owner s (st.calls id)

/-! ### Call Signaling Relay: relay (spec sections 4.5 and 7) -/

/-- Payload kinds of a signaling envelope (spec section 3). -/
inductive PayloadKind where
  | offer
  | answer
  | iceCandidate
deriving DecidableEq

/-- Modelled from the spec: a Signaling Envelope (spec section 3), missing
from `src/`: ephemeral; call id, sender user, recipient user, payload kind,
opaque payload, and a sequence number scoped to the (call, sender, recipient)
triple. -/
structure Envelope where
  callId : Nat
  sender : UserId
  recipient : UserId
  kind : PayloadKind
  payload : Nat
  seq : Nat
deriving DecidableEq

/-- Modelled from the spec: `relay(envelope)` (spec section 4.5), missing from
`src/`: forwards the envelope verbatim to the recipient's live session(s) for
the call only if the recipient is a current participant; otherwise it fails
silently — logged, nothing delivered, and no error returned or sent to the
sender (spec section 7: signaling relay failures are swallowed, not retried).
The first component lists the (session, envelope) deliveries, the second the
error surfaced to the sender. -/
def relay (env : Envelope) (call : Call) :
    List (SessionId × Envelope) × Option CallError :=
  if env.recipient ∈ call.participants then
    (((call.sessions env.recipient).sort (· ≤ ·)).map fun s => (s, env), none)
  else ([], none)

/-- C7: for every envelope whose recipient is no longer a participant of the
call, relay delivers nothing and neither returns nor sends any error to the
sender; in particular, right after the recipient leaves the call (for
instance B leaving before A's next offer), a subsequent envelope addressed to
them is silently dropped. -/
theorem relay_silent_drop (env : Envelope) (call : Call) :
    (env.recipient ∉ call.participants → relay env call = ([], none)) ∧
    relay env (leaveCall env.recipient call) = ([], none) := by
  constructor
  · intro h
    simp [relay, h]
  · have h : env.recipient ∉ (leaveCall env.recipient call).participants := by
      simp [leaveCall]
    simp [relay, h]

/-- Witness for C7: an offer from user 0 to user 1, who is not a participant
of the freshly started call of user 0, is dropped with no error. -/
theorem relay_silent_drop_witness :
    relay ⟨0, 0, 1, .offer, 0, 0⟩ (startCall 0 0 0) = ([], none) :=
  (relay_silent_drop ⟨0, 0, 1, .offer, 0, 0⟩ (startCall 0 0 0)).1 (by decide)

end AfroChat
